import Mathlib

/-!
Verification development for the PhraseFinder notebook
(src/phrase_finder.ipynb).

The notebook's ranking core consists of three Python functions operating
on numpy arrays of 64-bit floats:

  similarity(vector1, vector2)   cell 5, notebook lines 140-147
  phrase_vector(phrase)          cell 5, notebook lines 148-163
  get_comparisons(phrase, number) cell 8, lines 226-238

This file gives a shallow embedding of those functions in exact
arithmetic.  Conventions used throughout:

* A finite float value is modelled as a rational number.  The scalar
  type is R, an optional rational: some q models the finite float q and
  none models a non-finite float (NaN).  Every division the code
  performs with a zero divisor has a zero (or NaN) dividend, so the
  resulting float is NaN and none is the exact model of a zero-divisor
  division.
* A numpy vector is a list of scalars.  The embedding dimension 300 is
  hard-coded in the source (numpy.zeros((300,))).
* The external gensim word-embedding table (googledata_model) is a
  parameter: a function from token strings to optional vectors, where
  none models a KeyError for an out-of-vocabulary token.  The gensim
  stopword set is likewise a parameter, a list of strings.
* A cosine similarity score inner/(norm1*norm2) is represented exactly
  by the pair of its numerator and the square of its denominator:
  Score.val a d denotes the real number a divided by the square root
  of d, and Score.nan denotes the float NaN.
* A Python function that can raise an exception is embedded with an
  Option result; none models an uncaught exception (IndexError in
  get_comparisons).  Note that numpy division by zero and invalid-value
  conditions do NOT raise: they emit a RuntimeWarning and produce
  inf/NaN, as the notebook's own cell-9 output shows.
-/

set_option maxRecDepth 40000

/-- Scalar type of the embedding: some q is the finite float q, none is NaN. -/
abbrev R := Option ℚ

/-- Float addition: NaN propagates through either operand. -/
def Radd : R → R → R
  | some x, some y => some (x + y)
  | _, _ => none

/-- Float multiplication: NaN propagates through either operand. -/
def Rmul : R → R → R
  | some x, some y => some (x * y)
  | _, _ => none

/-- Float division.  A NaN operand gives NaN.  A zero divisor gives none:
in every division performed by the embedded code the dividend is then
also zero, so the float result is 0.0/0.0 = NaN, which none models. -/
def Rdiv : R → R → R
  | some x, some y => if y = 0 then none else some (x / y)
  | _, _ => none

/-- Vector type: a numpy 1-d array of floats. -/
abbrev Vec := List R

/-- The array numpy.zeros((300,)) built at notebook line 155. -/
def zeros300 : Vec := List.replicate 300 (some 0)

/-- Elementwise numpy.add of two arrays (notebook line 161). -/
def vecAdd (v w : Vec) : Vec := List.zipWith Radd v w

/-- Python str.lower(): lowercase every character. -/
def pyLower (s : String) : String := String.mk (s.data.map Char.toLower)

/-- Helper for pySplit: walks the character list, accumulating the
current word in reverse; whitespace closes the current word. -/
def splitWSAux : List Char → List Char → List String
  | [], acc => if acc.isEmpty then [] else [String.mk acc.reverse]
  | c :: cs, acc =>
    if c.isWhitespace then
      if acc.isEmpty then splitWSAux cs []
      else String.mk acc.reverse :: splitWSAux cs []
    else splitWSAux cs (c :: acc)

/-- Python str.split() with no argument: split on runs of whitespace,
discarding empty pieces, so empty and all-whitespace strings give []. -/
def pySplit (s : String) : List String := splitWSAux s.data []

/-- The token list of notebook line 154:
phrase.lower().split() filtered by the condition
(word not in stopwords or True), which keeps every token. -/
def phrase_words (stopwords : List String) (phrase : String) : List String :=
  (pySplit (pyLower phrase)).filter (fun word => !(stopwords.contains word) || true)

/-- The try/except of notebook lines 157-160: look the token up in the
model; a KeyError (none) is replaced by numpy.zeros(300,). -/
def tokenLookup (model : String → Option Vec) (word : String) : Vec :=
  match model word with
  | some v => v
  | none => List.replicate 300 (some 0)

/-- Embedding of phrase_vector (notebook lines 148-163): sum the
per-token vectors starting from zeros(300), then compute
phrase_vector * 1 / len(phrase_words) elementwise.  The function always
returns an array (some ...); when the phrase has no tokens the division
is by zero and every component is NaN, with no exception raised. -/
def phrase_vector (model : String → Option Vec) (stopwords : List String)
    (phrase : String) : Option Vec :=
  let words := phrase_words stopwords phrase
  let summed := words.foldl (fun pv word => vecAdd (tokenLookup model word) pv) zeros300
  some (summed.map (fun c => Rdiv (Rmul c (some 1)) (some (words.length : ℚ))))

/-- numpy.inner of two 1-d arrays: sum of elementwise products. -/
def dotR (v w : Vec) : R := (List.zipWith Rmul v w).foldr Radd (some 0)

/-- Exact representation of a float similarity score.
Score.val a d denotes the real number a / Real.sqrt d (similarity only
ever builds it with d positive); Score.nan denotes the float NaN. -/
inductive Score where
  | val (num : ℚ) (denSq : ℚ) : Score
  | nan : Score
deriving DecidableEq, Repr

/-- Embedding of similarity (notebook lines 140-147):
numpy.inner(v1, v2) / (norm(v1) * norm(v2)).  The product of the two
norms is the square root of dotR v1 v1 * dotR v2 v2.  When that product
is zero the dividend dotR v1 v2 is also zero (a zero self-inner-product
of finite rationals forces the vector, hence the inner product, to be
zero), so the float result is 0.0/0.0 = NaN; no exception is raised. -/
def similarity (vector1 vector2 : Vec) : Score :=
  match dotR vector1 vector2, dotR vector1 vector1, dotR vector2 vector2 with
  | some inner, some normSq1, some normSq2 =>
    if normSq1 * normSq2 = 0 then Score.nan
    else Score.val inner (normSq1 * normSq2)
  | _, _, _ => Score.nan

/-- Rational comparison key of a defined score: for Score.val a d with
d positive, a * |a| / d is the image of a / Real.sqrt d under the
strictly monotone map sending t to t * |t|, so comparing these rational
keys is exactly comparing the real score values.  The value on nan is
never used (comparisons with nan are handled separately). -/
def svalQ : Score → ℚ
  | Score.val a d => a * |a| / d
  | Score.nan => 0

/-- Float unary minus, applied to the sort key -item[-1] at notebook
line 233: negation of a / sqrt d is (-a) / sqrt d, and -NaN is NaN. -/
def negScore : Score → Score
  | Score.val a d => Score.val (-a) d
  | Score.nan => Score.nan

/-- IEEE-754 strict less-than on represented scores: comparisons
involving NaN are false; defined values compare through svalQ. -/
def scoreLt : Score → Score → Bool
  | Score.val a d, Score.val b e => decide (svalQ (Score.val a d) < svalQ (Score.val b e))
  | _, _ => false

/-- IEEE-754 greater-or-equal on represented scores: comparisons
involving NaN are false. -/
def scoreGe : Score → Score → Bool
  | Score.val a d, Score.val b e => decide (svalQ (Score.val b e) ≤ svalQ (Score.val a d))
  | _, _ => false

/-- Python enumerate(xs) starting at counter n. -/
def pyEnumerate (n : ℕ) : List α → List (ℕ × α)
  | [] => []
  | x :: xs => (n, x) :: pyEnumerate (n + 1) xs

/-- The call similarity(item[-1], vector_to_compare) at notebook
line 232, where both arguments are Python values that could in
principle be None.  The None branches model the TypeError such a call
would raise; they are unreachable because phrase_vector always returns
an array (see phrase_vector_isSome). -/
def simOpt : Option Vec → Option Vec → Score
  | some v, some q => similarity v q
  | _, _ => Score.nan

/-- Comparator of Python list.sort / sorted with key k: during the
stable sort an element p placed before q in the input stays before q
unless k(q) < k(p).  Here k(item) = -item[-1] (notebook line 233). -/
def pyLe (p q : ℕ × Score) : Bool := !(scoreLt (negScore q.2) (negScore p.2))

/-- Stable insertion of x in front of the first element it may precede. -/
def pyInsert (x : ℕ × Score) : List (ℕ × Score) → List (ℕ × Score)
  | [] => [x]
  | y :: l => if pyLe x y then x :: y :: l else y :: pyInsert x l

/-- Python sorted(list, key = lambda item : -item[-1]) (notebook
line 233), modelled as the stable sort under pyLe.  For the consistent
comparators produced by defined scores every stable binary-comparison
sort, including CPython's Timsort, returns this same list; the file
only states concrete facts about inconsistent (NaN) inputs where the
output is forced (lists of length at most two, where Timsort performs
the single comparison modelled by pyLe). -/
def pySorted (l : List (ℕ × Score)) : List (ℕ × Score) := l.foldr pyInsert []

/-- The loop for index in range(number): output.append(...) with
exception propagation: the first failing body aborts the whole call. -/
def pyLoop (f : ℕ → Option String) : List ℕ → Option (List String)
  | [] => some []
  | i :: rest =>
    match f i with
    | none => none
    | some s => (pyLoop f rest).map (fun out => s :: out)

/-- The list interesting_phrases_vectors of notebook cell 7: the
phrase-vector of every corpus phrase, in corpus order. -/
def interesting_phrases_vectors (model : String → Option Vec)
    (stopwords : List String) (phrases : List String) : List (Option Vec) :=
  phrases.map (phrase_vector model stopwords)

/-- Notebook lines 227-229: enumerate the corpus vectors and keep the
items whose vector is not None. -/
def numbered_vectors (model : String → Option Vec) (stopwords : List String)
    (phrases : List String) : List (ℕ × Option Vec) :=
  (pyEnumerate 0 (interesting_phrases_vectors model stopwords phrases)).filter
    (fun item => item.2.isSome)

/-- Notebook lines 230-232: score every remaining numbered vector
against the query vector. -/
def scored_vectors (model : String → Option Vec) (stopwords : List String)
    (phrases : List String) (phrase : String) : List (ℕ × Score) :=
  (numbered_vectors model stopwords phrases).map
    (fun item => (item.1, simOpt item.2 (phrase_vector model stopwords phrase)))

/-- Notebook line 233: the scored items sorted by descending score. -/
def sorted_vectors (model : String → Option Vec) (stopwords : List String)
    (phrases : List String) (phrase : String) : List (ℕ × Score) :=
  pySorted (scored_vectors model stopwords phrases phrase)

/-- Embedding of get_comparisons (notebook lines 226-238).  The result
is the list of corpus phrases selected by the first number entries of
the sorted score list; none models the IndexError raised when number
exceeds the number of sorted entries.  Python's range(number) is empty
for number at most 0, hence the Int.toNat. -/
def get_comparisons (model : String → Option Vec) (stopwords : List String)
    (phrases : List String) (phrase : String) (number : ℤ) : Option (List String) :=
  pyLoop
    (fun index =>
      ((sorted_vectors model stopwords phrases phrase).get? index).bind
        (fun item => phrases.get? item.1))
    (List.range number.toNat)

/-! ### Basic facts about the scalar and vector operations -/

@[simp]
theorem Radd_some (x y : ℚ) : Radd (some x) (some y) = some (x + y) := rfl

@[simp]
theorem Rmul_some (x y : ℚ) : Rmul (some x) (some y) = some (x * y) := rfl

theorem Rdiv_some (x y : ℚ) (h : y ≠ 0) : Rdiv (some x) (some y) = some (x / y) := by
  simp [Rdiv, h]

theorem Rdiv_zero_divisor (x : ℚ) : Rdiv (some x) (some 0) = none := by
  simp [Rdiv]

/-- Summing n copies of a finite scalar. -/
theorem foldr_Radd_replicate (n : ℕ) (c x : ℚ) :
    (List.replicate n (some c)).foldr Radd (some x) = some (n * c + x) := by
  induction n generalizing x with
  | zero => simp
  | succ m ih =>
    rw [List.replicate_succ, List.foldr_cons, ih, Radd_some]
    congr 1
    push_cast
    ring

/-- Inner product of two constant vectors of the same length. -/
theorem dotR_replicate (n : ℕ) (c d : ℚ) :
    dotR (List.replicate n (some c)) (List.replicate n (some d)) = some (n * (c * d)) := by
  rw [dotR, List.zipWith_replicate', Rmul_some, foldr_Radd_replicate]
  simp

/-- A defined self-inner-product is a sum of squares, hence nonnegative. -/
theorem dotR_self_nonneg (v : Vec) (x : ℚ) (h : dotR v v = some x) : 0 ≤ x := by
  induction v generalizing x with
  | nil =>
    simp only [dotR, List.zipWith_nil_right, List.foldr_nil, Option.some.injEq] at h
    exact le_of_eq h
  | cons c v ih =>
    simp only [dotR, List.zipWith_cons_cons, List.foldr_cons] at h
    cases c with
    | none => simp [Rmul] at h; cases h
    | some q =>
      rcases hrest : (List.zipWith Rmul v v).foldr Radd (some 0) with _ | s
      · rw [hrest] at h; simp [Rmul, Radd] at h
      · rw [hrest] at h
        simp only [Rmul_some, Radd_some, Option.some.injEq] at h
        have hs : 0 ≤ s := ih s (by simpa [dotR] using hrest)
        nlinarith [mul_self_nonneg q]

/-- A defined self-inner-product of a vector with a component that is
neither NaN nor zero is strictly positive. -/
theorem dotR_self_pos (v : Vec) (x : ℚ) (h : dotR v v = some x)
    (hc : ∃ c ∈ v, ∀ q : ℚ, c = some q → q ≠ 0) : 0 < x := by
  induction v generalizing x with
  | nil => rcases hc with ⟨c, hc, _⟩; cases hc
  | cons c v ih =>
    simp only [dotR, List.zipWith_cons_cons, List.foldr_cons] at h
    cases c with
    | none => simp [Rmul] at h; cases h
    | some q =>
      rcases hrest : (List.zipWith Rmul v v).foldr Radd (some 0) with _ | s
      · rw [hrest] at h; simp [Rmul, Radd] at h
      · rw [hrest] at h
        simp only [Rmul_some, Radd_some, Option.some.injEq] at h
        have hs : 0 ≤ s := dotR_self_nonneg v s (by simpa [dotR] using hrest)
        rcases hc with ⟨c, hcmem, hcne⟩
        rcases List.mem_cons.mp hcmem with hhead | htail
        · have hq : q ≠ 0 := by
            subst hhead
            exact hcne q rfl
          nlinarith [mul_self_pos.mpr hq]
        · have : 0 < s := ih s (by simpa [dotR] using hrest) ⟨c, htail, hcne⟩
          nlinarith [mul_self_nonneg q]

/-- phrase_vector always returns an array, never Python None. -/
theorem phrase_vector_isSome (model : String → Option Vec) (stopwords : List String)
    (phrase : String) : (phrase_vector model stopwords phrase).isSome := rfl

/-- similarity only builds a defined score with a positive squared
denominator (a product of two nonzero sums of squares). -/
theorem similarity_val_pos (v w : Vec) (a d : ℚ)
    (h : similarity v w = Score.val a d) : 0 < d := by
  rcases hvw : dotR v w with _ | i
  · simp only [similarity, hvw] at h
    exact Score.noConfusion h
  · rcases hvv : dotR v v with _ | x
    · simp only [similarity, hvw, hvv] at h
      exact Score.noConfusion h
    · rcases hww : dotR w w with _ | y
      · simp only [similarity, hvw, hvv, hww] at h
        exact Score.noConfusion h
      · simp only [similarity, hvw, hvv, hww] at h
        by_cases hz : x * y = 0
        · rw [if_pos hz] at h
          cases h
        · rw [if_neg hz] at h
          cases h
          have hx := dotR_self_nonneg v x hvv
          have hy := dotR_self_nonneg w y hww
          exact lt_of_le_of_ne (mul_nonneg hx hy) (Ne.symm hz)

/-! ### Facts about pyEnumerate, pySorted and pyLoop -/

theorem pyEnumerate_length (n : ℕ) (l : List α) : (pyEnumerate n l).length = l.length := by
  induction l generalizing n with
  | nil => rfl
  | cons x xs ih => simp [pyEnumerate, ih]

theorem fst_lt_of_mem_pyEnumerate (n : ℕ) (l : List α) (p : ℕ × α)
    (h : p ∈ pyEnumerate n l) : n ≤ p.1 ∧ p.1 < n + l.length := by
  induction l generalizing n with
  | nil => cases h
  | cons x xs ih =>
    rcases List.mem_cons.mp h with rfl | htail
    · simp
    · have := ih (n + 1) htail
      constructor <;> [omega; simpa [Nat.add_comm, Nat.add_left_comm] using this.2]

theorem snd_mem_of_mem_pyEnumerate (n : ℕ) (l : List α) (p : ℕ × α)
    (h : p ∈ pyEnumerate n l) : p.2 ∈ l := by
  induction l generalizing n with
  | nil => cases h
  | cons x xs ih =>
    rcases List.mem_cons.mp h with rfl | htail
    · exact List.mem_cons_self _ _
    · exact List.mem_cons_of_mem _ (ih (n + 1) htail)

theorem pyEnumerate_pairwise (n : ℕ) (l : List α) :
    (pyEnumerate n l).Pairwise (fun p q => p.1 < q.1) := by
  induction l generalizing n with
  | nil => exact List.Pairwise.nil
  | cons x xs ih =>
    refine List.Pairwise.cons ?_ (ih (n + 1))
    intro q hq
    exact lt_of_lt_of_le (Nat.lt_succ_self n) (fst_lt_of_mem_pyEnumerate (n + 1) xs q hq).1

theorem pyInsert_perm (x : ℕ × Score) (l : List (ℕ × Score)) :
    (pyInsert x l).Perm (x :: l) := by
  induction l with
  | nil => exact List.Perm.refl _
  | cons y l ih =>
    by_cases h : pyLe x y = true
    · simp [pyInsert, h]
    · simp only [pyInsert, h]
      rw [if_neg (by simp [h])]
      exact (ih.cons y).trans (List.Perm.swap x y l)

theorem pySorted_perm (l : List (ℕ × Score)) : (pySorted l).Perm l := by
  induction l with
  | nil => exact List.Perm.refl _
  | cons x l ih =>
    exact (pyInsert_perm x (pySorted l)).trans (ih.cons x)

theorem pySorted_length (l : List (ℕ × Score)) : (pySorted l).length = l.length :=
  (pySorted_perm l).length_eq

theorem mem_pySorted (l : List (ℕ × Score)) (p : ℕ × Score) :
    p ∈ pySorted l ↔ p ∈ l :=
  (pySorted_perm l).mem_iff

/-- Every iteration of the output loop succeeds: the loop returns the
full list, one element per index. -/
theorem pyLoop_some (f : ℕ → Option String) (l : List ℕ)
    (h : ∀ i ∈ l, (f i).isSome) :
    ∃ out, pyLoop f l = some out ∧ out.length = l.length := by
  induction l with
  | nil => exact ⟨[], rfl, rfl⟩
  | cons i l ih =>
    rcases Option.isSome_iff_exists.mp (h i (List.mem_cons_self i l)) with ⟨s, hs⟩
    rcases ih (fun j hj => h j (List.mem_cons_of_mem i hj)) with ⟨out, hout, hlen⟩
    exact ⟨s :: out, by simp [pyLoop, hs, hout], by simp [hlen]⟩

/-- One failing iteration aborts the loop with an exception. -/
theorem pyLoop_none (f : ℕ → Option String) (l : List ℕ) (i : ℕ)
    (hi : i ∈ l) (h : f i = none) : pyLoop f l = none := by
  induction l with
  | nil => cases hi
  | cons j l ih =>
    rcases List.mem_cons.mp hi with rfl | htail
    · simp [pyLoop, h]
    · rcases hf : f j with _ | s
      · simp [pyLoop, hf]
      · simp [pyLoop, hf, ih htail]

/-! ### Pipeline facts shared by several claims -/

/-- The is-not-None filter at notebook line 229 keeps every entry,
because phrase_vector always returns an array. -/
theorem numbered_vectors_eq_enum (model : String → Option Vec)
    (stopwords : List String) (phrases : List String) :
    numbered_vectors model stopwords phrases
      = pyEnumerate 0 (interesting_phrases_vectors model stopwords phrases) := by
  apply List.filter_eq_self.mpr
  intro item hitem
  have h2 := snd_mem_of_mem_pyEnumerate 0 _ item hitem
  rcases List.mem_map.mp h2 with ⟨p, _, hp⟩
  rw [← hp]
  exact phrase_vector_isSome model stopwords p

theorem scored_vectors_length (model : String → Option Vec) (stopwords : List String)
    (phrases : List String) (phrase : String) :
    (scored_vectors model stopwords phrases phrase).length = phrases.length := by
  rw [scored_vectors, List.length_map, numbered_vectors_eq_enum, pyEnumerate_length,
    interesting_phrases_vectors, List.length_map]

theorem sorted_vectors_length (model : String → Option Vec) (stopwords : List String)
    (phrases : List String) (phrase : String) :
    (sorted_vectors model stopwords phrases phrase).length = phrases.length := by
  rw [sorted_vectors, pySorted_length, scored_vectors_length]

theorem fst_lt_of_mem_scored_vectors (model : String → Option Vec)
    (stopwords : List String) (phrases : List String) (phrase : String)
    (p : ℕ × Score) (h : p ∈ scored_vectors model stopwords phrases phrase) :
    p.1 < phrases.length := by
  rw [scored_vectors] at h
  rcases List.mem_map.mp h with ⟨item, hitem, hp⟩
  rw [numbered_vectors_eq_enum] at hitem
  have := (fst_lt_of_mem_pyEnumerate 0 _ item hitem).2
  rw [interesting_phrases_vectors, List.length_map] at this
  rw [← hp]
  simpa using this

theorem scored_vectors_pairwise_fst (model : String → Option Vec)
    (stopwords : List String) (phrases : List String) (phrase : String) :
    (scored_vectors model stopwords phrases phrase).Pairwise (fun p q => p.1 < q.1) := by
  rw [scored_vectors, numbered_vectors_eq_enum]
  exact (pyEnumerate_pairwise 0 _).map _ (fun p q h => h)

/-- Core success case of get_comparisons: number within bounds gives a
result list with exactly number.toNat phrases. -/
theorem get_comparisons_some (model : String → Option Vec) (stopwords : List String)
    (phrases : List String) (phrase : String) (number : ℤ)
    (h : number.toNat ≤ phrases.length) :
    ∃ out, get_comparisons model stopwords phrases phrase number = some out
      ∧ out.length = number.toNat := by
  rw [get_comparisons]
  have hall : ∀ i ∈ List.range number.toNat,
      (((sorted_vectors model stopwords phrases phrase).get? i).bind
        (fun item => phrases.get? item.1)).isSome := by
    intro i hi
    have hi2 : i < phrases.length := lt_of_lt_of_le (List.mem_range.mp hi) h
    have hi3 : i < (sorted_vectors model stopwords phrases phrase).length := by
      rw [sorted_vectors_length]; exact hi2
    rcases hget : (sorted_vectors model stopwords phrases phrase).get? i with _ | item
    · rw [List.get?_eq_get hi3] at hget; cases hget
    · have hmem : item ∈ sorted_vectors model stopwords phrases phrase :=
        List.get?_mem hget
      have hlt : item.1 < phrases.length :=
        fst_lt_of_mem_scored_vectors model stopwords phrases phrase item
          ((mem_pySorted _ _).mp hmem)
      rw [Option.some_bind, List.get?_eq_get hlt]
      exact Option.isSome_some
  rcases pyLoop_some _ (List.range number.toNat) hall with ⟨out, hout, hlen⟩
  exact ⟨out, hout, by simpa using hlen⟩

/-- Core failure case of get_comparisons: number beyond the corpus size
makes the loop index past the end of sorted_vectors, an IndexError. -/
theorem get_comparisons_none (model : String → Option Vec) (stopwords : List String)
    (phrases : List String) (phrase : String) (number : ℤ)
    (h : phrases.length < number.toNat) :
    get_comparisons model stopwords phrases phrase number = none := by
  rw [get_comparisons]
  apply pyLoop_none _ _ phrases.length (List.mem_range.mpr h)
  have : (sorted_vectors model stopwords phrases phrase).length ≤ phrases.length :=
    le_of_eq (sorted_vectors_length model stopwords phrases phrase)
  rw [List.get?_eq_none.mpr this]
  rfl

/-! ### Order of the sorted score list -/

/-- The strict priority order that the stable descending sort realises:
p is ranked before q when p's score value is strictly greater, or when
the score values are equal and p has the smaller corpus index. -/
def rankedBefore (p q : ℕ × Score) : Prop :=
  svalQ q.2 < svalQ p.2 ∨ (svalQ q.2 = svalQ p.2 ∧ p.1 < q.1)

theorem svalQ_negScore (s : Score) : svalQ (negScore s) = -svalQ s := by
  cases s with
  | val a d => simp only [negScore, svalQ, abs_neg]; ring
  | nan => simp [negScore, svalQ]

theorem pyLe_val (p q : ℕ × Score) (hp : p.2 ≠ Score.nan) (hq : q.2 ≠ Score.nan) :
    pyLe p q = true ↔ svalQ q.2 ≤ svalQ p.2 := by
  rcases p with ⟨ip, sp⟩
  rcases q with ⟨iq, sq⟩
  cases sp with
  | nan => exact absurd rfl hp
  | val a d =>
    cases sq with
    | nan => exact absurd rfl hq
    | val b e =>
      have hb : svalQ (Score.val (-b) e) = -svalQ (Score.val b e) :=
        svalQ_negScore (Score.val b e)
      have ha : svalQ (Score.val (-a) d) = -svalQ (Score.val a d) :=
        svalQ_negScore (Score.val a d)
      simp only [pyLe, negScore, scoreLt, Bool.not_eq_true', decide_eq_false_iff_not,
        hb, ha, neg_lt_neg_iff, not_lt]

theorem mem_pyInsert (x q : ℕ × Score) (l : List (ℕ × Score)) :
    q ∈ pyInsert x l ↔ q = x ∨ q ∈ l := by
  rw [(pyInsert_perm x l).mem_iff, List.mem_cons]

theorem pyInsert_rankedBefore (x : ℕ × Score) (L : List (ℕ × Score))
    (hxv : x.2 ≠ Score.nan) (hLv : ∀ p ∈ L, p.2 ≠ Score.nan)
    (hL : L.Pairwise rankedBefore) (hx : ∀ p ∈ L, x.1 < p.1) :
    (pyInsert x L).Pairwise rankedBefore := by
  induction L with
  | nil => simp [pyInsert]
  | cons y L ih =>
    have hyv : y.2 ≠ Score.nan := hLv y (List.mem_cons_self y L)
    by_cases h : pyLe x y = true
    · rw [pyInsert, if_pos h]
      have hyx : svalQ y.2 ≤ svalQ x.2 := (pyLe_val x y hxv hyv).mp h
      refine List.Pairwise.cons ?_ hL
      intro p hp
      rcases List.mem_cons.mp hp with rfl | htail
      · rcases lt_or_eq_of_le hyx with hlt | heq
        · exact Or.inl hlt
        · exact Or.inr ⟨heq, hx p (List.mem_cons_self p L)⟩
      · rcases List.rel_of_pairwise_cons hL htail with hlt | ⟨heq, _⟩
        · exact Or.inl (lt_of_lt_of_le hlt hyx)
        · rcases lt_or_eq_of_le hyx with hlt2 | heq2
          · exact Or.inl (heq ▸ hlt2)
          · exact Or.inr ⟨heq.trans heq2, hx p (List.mem_cons_of_mem y htail)⟩
    · rw [pyInsert, if_neg h]
      have hxy : svalQ x.2 < svalQ y.2 := by
        have := (pyLe_val x y hxv hyv).not.mp (by simp [h])
        exact not_le.mp this
      refine List.Pairwise.cons ?_ ?_
      · intro p hp
        rcases (mem_pyInsert x p L).mp hp with rfl | htail
        · exact Or.inl hxy
        · exact List.rel_of_pairwise_cons hL htail
      · exact ih (fun p hp => hLv p (List.mem_cons_of_mem y hp))
          (List.Pairwise.of_cons hL)
          (fun p hp => hx p (List.mem_cons_of_mem y hp))

theorem pySorted_rankedBefore (l : List (ℕ × Score))
    (hv : ∀ p ∈ l, p.2 ≠ Score.nan)
    (hi : l.Pairwise (fun p q => p.1 < q.1)) :
    (pySorted l).Pairwise rankedBefore := by
  induction l with
  | nil => exact List.Pairwise.nil
  | cons x l ih =>
    rw [pySorted, List.foldr_cons]
    have htail : (pySorted l).Pairwise rankedBefore :=
      ih (fun p hp => hv p (List.mem_cons_of_mem x hp)) (List.Pairwise.of_cons hi)
    exact pyInsert_rankedBefore x (pySorted l)
      (hv x (List.mem_cons_self x l))
      (fun p hp => hv p (List.mem_cons_of_mem x ((mem_pySorted l p).mp hp)))
      htail
      (fun p hp => List.rel_of_pairwise_cons hi ((mem_pySorted l p).mp hp))

/-! ### The real value of a score -/

/-- The map sending t to t * abs t is strictly monotone on the reals;
it is the order-preserving transform connecting a / Real.sqrt d to the
rational comparison key a * abs a / d. -/
theorem mul_abs_strictMono : StrictMono fun t : ℝ => t * |t| := by
  intro s t h
  show s * |s| < t * |t|
  rcases le_or_lt 0 s with hs | hs
  · have ht : 0 < t := lt_of_le_of_lt hs h
    rw [abs_of_nonneg hs, abs_of_pos ht]
    exact mul_self_lt_mul_self hs h
  · rcases le_or_lt 0 t with ht | ht
    · calc s * |s| < 0 := mul_neg_of_neg_of_pos hs (abs_pos.mpr hs.ne)
        _ ≤ t * |t| := mul_nonneg ht (abs_nonneg t)
    · rw [abs_of_neg hs, abs_of_neg ht]
      nlinarith

/-- Real number denoted by a score: Score.val a d stands for the float
a / sqrt d computed by similarity.  Used only in specification
statements; the value 0 assigned to nan is never relied upon. -/
noncomputable def scoreVal : Score → ℝ
  | Score.val a d => (a : ℝ) / Real.sqrt (d : ℝ)
  | Score.nan => 0

theorem svalQ_cast (a d : ℚ) (hd : 0 < d) :
    ((svalQ (Score.val a d) : ℚ) : ℝ)
      = scoreVal (Score.val a d) * |scoreVal (Score.val a d)| := by
  have hdR : (0 : ℝ) < (d : ℝ) := by exact_mod_cast hd
  have hs : (0 : ℝ) < Real.sqrt (d : ℝ) := Real.sqrt_pos.mpr hdR
  simp only [svalQ, scoreVal]
  push_cast
  rw [abs_div, abs_of_pos hs, div_mul_div_comm, Real.mul_self_sqrt hdR.le]

theorem svalQ_le_iff (a d b e : ℚ) (hd : 0 < d) (he : 0 < e) :
    svalQ (Score.val a d) ≤ svalQ (Score.val b e) ↔
      scoreVal (Score.val a d) ≤ scoreVal (Score.val b e) := by
  rw [← Rat.cast_le (K := ℝ), svalQ_cast a d hd, svalQ_cast b e he]
  exact mul_abs_strictMono.le_iff_le

theorem svalQ_eq_iff (a d b e : ℚ) (hd : 0 < d) (he : 0 < e) :
    svalQ (Score.val a d) = svalQ (Score.val b e) ↔
      scoreVal (Score.val a d) = scoreVal (Score.val b e) := by
  constructor
  · intro h
    exact le_antisymm ((svalQ_le_iff a d b e hd he).mp h.le)
      ((svalQ_le_iff b e a d he hd).mp h.ge)
  · intro h
    exact le_antisymm ((svalQ_le_iff a d b e hd he).mpr h.le)
      ((svalQ_le_iff b e a d he hd).mpr h.ge)

/-! ### Reference definition of the per-token mean (from the spec, for C1)

The following spec_ definitions follow the specification's words — the
output vector is the arithmetic mean of all per-token vectors, an
unknown token contributing the zero vector of dimension 300 — over an
exact rational embedding table qmodel.  They are the reference against
which phrase_vector is compared. -/

/-- Per-token vector of the spec: the table's vector for the token, or
the zero vector of dimension 300 when the token is unknown. -/
def spec_token_vector (qmodel : String → Option (List ℚ)) (word : String) : List ℚ :=
  (qmodel word).getD (List.replicate 300 0)

/-- Elementwise sum of a list of vectors, starting from the zero vector. -/
def spec_sum_vectors (vs : List (List ℚ)) : List ℚ :=
  vs.foldl (fun acc u => List.zipWith (· + ·) acc u) (List.replicate 300 0)

/-- The arithmetic mean of the per-token vectors of the given tokens:
their elementwise sum divided by the token count. -/
def spec_mean_vector (qmodel : String → Option (List ℚ)) (ws : List String) : List ℚ :=
  (spec_sum_vectors (ws.map (spec_token_vector qmodel))).map
    (fun c => c / (ws.length : ℚ))

theorem vecAdd_map_some (u a : List ℚ) :
    vecAdd (u.map some) (a.map some) = (List.zipWith (· + ·) u a).map some := by
  induction u generalizing a with
  | nil => cases a <;> rfl
  | cons x u ih =>
    cases a with
    | nil => rfl
    | cons y a => simp [vecAdd] at ih ⊢; exact ih a

theorem tokenLookup_map_some (model : String → Option Vec)
    (qmodel : String → Option (List ℚ))
    (hco : ∀ w, model w = (qmodel w).map (fun u => u.map some)) (w : String) :
    tokenLookup model w = (spec_token_vector qmodel w).map some := by
  rcases hq : qmodel w with _ | u
  · have hm : model w = none := by rw [hco w, hq]; rfl
    rw [tokenLookup, hm, spec_token_vector, hq]
    simp
  · have hm : model w = some (u.map some) := by rw [hco w, hq]; rfl
    rw [tokenLookup, hm, spec_token_vector, hq]
    rfl

theorem foldl_vecAdd_map_some (model : String → Option Vec)
    (qmodel : String → Option (List ℚ))
    (hco : ∀ w, model w = (qmodel w).map (fun u => u.map some))
    (ws : List String) (acc : List ℚ) :
    ws.foldl (fun pv word => vecAdd (tokenLookup model word) pv) (acc.map some)
      = (ws.foldl (fun a word => List.zipWith (· + ·) a (spec_token_vector qmodel word))
          acc).map some := by
  induction ws generalizing acc with
  | nil => rfl
  | cons w ws ih =>
    rw [List.foldl_cons, List.foldl_cons, tokenLookup_map_some model qmodel hco w,
      vecAdd_map_some,
      List.zipWith_comm_of_comm _ (fun a b => add_comm a b) (spec_token_vector qmodel w) acc,
      ih]

/-- Core fact behind C1: on any phrase with at least one token, against
an embedding table of finite-valued vectors, phrase_vector computes
exactly the arithmetic mean of the per-token vectors, with unknown
tokens contributing the zero vector. -/
theorem phrase_vector_mean_core (model : String → Option Vec)
    (qmodel : String → Option (List ℚ)) (stopwords : List String) (phrase : String)
    (hco : ∀ w, model w = (qmodel w).map (fun u => u.map some))
    (hnz : phrase_words stopwords phrase ≠ []) :
    phrase_vector model stopwords phrase
      = some ((spec_mean_vector qmodel (phrase_words stopwords phrase)).map some) := by
  have hlen : ((phrase_words stopwords phrase).length : ℚ) ≠ 0 := by
    exact_mod_cast Nat.cast_ne_zero.mpr (fun h => hnz (List.length_eq_zero.mp h))
  have hz : zeros300 = (List.replicate 300 (0 : ℚ)).map some := by
    simp [zeros300]
  rw [phrase_vector]
  simp only [hz]
  rw [foldl_vecAdd_map_some model qmodel hco]
  rw [spec_mean_vector, spec_sum_vectors, List.foldl_map, List.map_map, List.map_map]
  congr 1
  apply List.map_congr_left
  intro c _
  simp only [Function.comp_apply, Rmul_some, mul_one]
  rw [Rdiv_some c _ hlen]

/-! ### Concrete fixtures used by witnesses and counterexamples

A two-word embedding table: the token happy maps to the constant
vector of ones, the token sad to the constant vector of minus ones,
and every other token is out of vocabulary.  The stopword set is empty
(its content is irrelevant: the filter keeps every token anyway). -/

def vOneQ : List ℚ := List.replicate 300 1

def vNegOneQ : List ℚ := List.replicate 300 (-1)

def qmodel0 : String → Option (List ℚ) := fun w =>
  if w = "happy" then some vOneQ
  else if w = "sad" then some vNegOneQ
  else none

def model0 : String → Option Vec := fun w => (qmodel0 w).map (fun u => u.map some)

def sw0 : List String := []

theorem model0_coherent : ∀ w, model0 w = (qmodel0 w).map (fun u => u.map some) :=
  fun _ => rfl

theorem eval_words_happy : phrase_words sw0 "happy" = ["happy"] := by decide

theorem eval_words_sad : phrase_words sw0 "sad" = ["sad"] := by decide

theorem eval_words_zzz : phrase_words sw0 "zzz" = ["zzz"] := by decide

theorem eval_pv_happy :
    phrase_vector model0 sw0 "happy" = some (List.replicate 300 (some (1 : ℚ))) := by
  rw [phrase_vector_mean_core model0 qmodel0 sw0 "happy" model0_coherent
    (by rw [eval_words_happy]; simp)]
  rw [eval_words_happy, spec_mean_vector, spec_sum_vectors]
  have h1 : spec_token_vector qmodel0 "happy" = List.replicate 300 1 := rfl
  simp only [List.map_cons, List.map_nil, List.foldl_cons, List.foldl_nil, h1,
    List.zipWith_replicate', List.map_replicate, List.length_cons, List.length_nil]
  norm_num

theorem eval_pv_sad :
    phrase_vector model0 sw0 "sad" = some (List.replicate 300 (some (-1 : ℚ))) := by
  rw [phrase_vector_mean_core model0 qmodel0 sw0 "sad" model0_coherent
    (by rw [eval_words_sad]; simp)]
  rw [eval_words_sad, spec_mean_vector, spec_sum_vectors]
  have h1 : spec_token_vector qmodel0 "sad" = List.replicate 300 (-1) := rfl
  simp only [List.map_cons, List.map_nil, List.foldl_cons, List.foldl_nil, h1,
    List.zipWith_replicate', List.map_replicate, List.length_cons, List.length_nil]
  norm_num

theorem eval_pv_zzz :
    phrase_vector model0 sw0 "zzz" = some (List.replicate 300 (some (0 : ℚ))) := by
  rw [phrase_vector_mean_core model0 qmodel0 sw0 "zzz" model0_coherent
    (by rw [eval_words_zzz]; simp)]
  rw [eval_words_zzz, spec_mean_vector, spec_sum_vectors]
  have h1 : spec_token_vector qmodel0 "zzz" = List.replicate 300 0 := rfl
  simp only [List.map_cons, List.map_nil, List.foldl_cons, List.foldl_nil, h1,
    List.zipWith_replicate', List.map_replicate, List.length_cons, List.length_nil]
  norm_num

theorem eval_sim_one_one :
    similarity (List.replicate 300 (some (1 : ℚ))) (List.replicate 300 (some (1 : ℚ)))
      = Score.val 300 90000 := by
  have hd := dotR_replicate 300 (1 : ℚ) 1
  simp only [similarity, hd]
  rw [if_neg (by norm_num)]
  norm_num

theorem eval_sim_negone_one :
    similarity (List.replicate 300 (some (-1 : ℚ))) (List.replicate 300 (some (1 : ℚ)))
      = Score.val (-300) 90000 := by
  have h1 := dotR_replicate 300 (-1 : ℚ) 1
  have h2 := dotR_replicate 300 (-1 : ℚ) (-1)
  have h3 := dotR_replicate 300 (1 : ℚ) 1
  simp only [similarity, h1, h2, h3]
  rw [if_neg (by norm_num)]
  norm_num

theorem eval_sim_zero_one :
    similarity (List.replicate 300 (some (0 : ℚ))) (List.replicate 300 (some (1 : ℚ)))
      = Score.nan := by
  have h1 := dotR_replicate 300 (0 : ℚ) 1
  have h2 := dotR_replicate 300 (0 : ℚ) 0
  have h3 := dotR_replicate 300 (1 : ℚ) 1
  simp only [similarity, h1, h2, h3]
  rw [if_pos (by norm_num)]

/-! ### Core facts behind the error-handling claims -/

/-- Core fact behind C4: when either operand has a zero norm (zero
self-inner-product), similarity evaluates to the float NaN value.  No
exception is raised: the notebook run merely shows a RuntimeWarning. -/
theorem similarity_zero_norm_core (v w : Vec)
    (h : dotR v v = some 0 ∨ dotR w w = some 0) :
    similarity v w = Score.nan := by
  rcases hvw : dotR v w with _ | i
  · simp [similarity, hvw]
  · rcases hvv : dotR v v with _ | x
    · simp [similarity, hvw, hvv]
    · rcases hww : dotR w w with _ | y
      · simp [similarity, hvw, hvv, hww]
      · have hxy : x * y = 0 := by
          rcases h with h | h
          · rw [hvv] at h
            injection h with h2
            rw [h2, zero_mul]
          · rw [hww] at h
            injection h with h2
            rw [h2, mul_zero]
        unfold similarity
        rw [hvw, hvv, hww]
        simp only [if_pos hxy]

/-- Core fact behind C5: a phrase with no tokens makes phrase_vector
divide the zero vector by zero, producing the all-NaN array of
dimension 300; the function still returns normally. -/
theorem phrase_vector_empty_core (model : String → Option Vec)
    (stopwords : List String) (s : String) (h : phrase_words stopwords s = []) :
    phrase_vector model stopwords s = some (List.replicate 300 none) := by
  rw [phrase_vector]
  simp only [h, List.foldl_nil, List.length_nil, Nat.cast_zero, zeros300,
    List.map_replicate, Rmul_some, Rdiv]
  norm_num

/-- A self-inner-product of a vector with no NaN component is defined. -/
theorem dotR_self_isSome (v : Vec) (hfin : ∀ c ∈ v, c.isSome) :
    ∃ x, dotR v v = some x := by
  induction v with
  | nil => exact ⟨0, rfl⟩
  | cons c v ih =>
    have htail := ih (fun d hd => hfin d (List.mem_cons_of_mem c hd))
    rcases Option.isSome_iff_exists.mp (hfin c (List.mem_cons_self c v)) with ⟨q, rfl⟩
    rcases htail with ⟨x, hx⟩
    refine ⟨q * q + x, ?_⟩
    simp only [dotR, List.zipWith_cons_cons, List.foldr_cons, Rmul_some]
    rw [show (List.zipWith Rmul v v).foldr Radd (some 0) = some x from hx]
    rfl

/-- Core fact behind C8: a vector with a positive self-inner-product a
has similarity with itself represented as a / sqrt (a * a), whose real
value is exactly 1. -/
theorem similarity_self_core (v : Vec) (a : ℚ) (hd : dotR v v = some a) (ha : 0 < a) :
    similarity v v = Score.val a (a * a) ∧ scoreVal (similarity v v) = 1 := by
  have hsim : similarity v v = Score.val a (a * a) := by
    simp only [similarity, hd]
    rw [if_neg (mul_ne_zero ha.ne' ha.ne')]
  refine ⟨hsim, ?_⟩
  rw [hsim]
  simp only [scoreVal]
  have haR : (0 : ℝ) < (a : ℝ) := by exact_mod_cast ha
  rw [show ((a * a : ℚ) : ℝ) = (a : ℝ) * (a : ℝ) by push_cast; ring,
    Real.sqrt_mul_self haR.le]
  exact div_self haR.ne'

/-- Summing the all-zero token vectors of unknown tokens leaves the
zero accumulator unchanged. -/
theorem foldl_unknown_tokens (model : String → Option Vec) (ws : List String)
    (h : ∀ w ∈ ws, model w = none) :
    ws.foldl (fun pv word => vecAdd (tokenLookup model word) pv)
        (List.replicate 300 (some 0))
      = List.replicate 300 (some 0) := by
  induction ws with
  | nil => rfl
  | cons w ws ih =>
    rw [List.foldl_cons]
    have hw : tokenLookup model w = List.replicate 300 (some 0) := by
      rw [tokenLookup, h w (List.mem_cons_self w ws)]
    rw [hw]
    have hstep : vecAdd (List.replicate 300 (some (0 : ℚ))) (List.replicate 300 (some 0))
        = List.replicate 300 (some 0) := by
      rw [vecAdd, List.zipWith_replicate', Radd_some]
      norm_num
    rw [hstep]
    exact ih (fun x hx => h x (List.mem_cons_of_mem w hx))

/-- A phrase all of whose tokens are unknown vectorizes to the zero
vector of dimension 300 (when it has at least one token). -/
theorem phrase_vector_unknown_core (model : String → Option Vec)
    (stopwords : List String) (p : String)
    (h : ∀ w ∈ phrase_words stopwords p, model w = none)
    (hne : phrase_words stopwords p ≠ []) :
    phrase_vector model stopwords p = some (List.replicate 300 (some 0)) := by
  have hlen : ((phrase_words stopwords p).length : ℚ) ≠ 0 := by
    exact_mod_cast Nat.cast_ne_zero.mpr (fun hh => hne (List.length_eq_zero.mp hh))
  rw [phrase_vector]
  simp only [zeros300, foldl_unknown_tokens model _ h, List.map_replicate, Rmul_some,
    Rdiv_some _ _ hlen]
  norm_num

/-- The all-NaN vector has NaN similarity with anything. -/
theorem similarity_nan_vector (w : Vec) :
    similarity (List.replicate 300 none) w = Score.nan := by
  have hvv : dotR (List.replicate 300 (none : R)) (List.replicate 300 none) = none := by
    rw [show (300 : ℕ) = 299 + 1 from rfl, List.replicate_succ]
    rfl
  unfold similarity
  rcases hvw : dotR (List.replicate 300 none) w with _ | i
  · rfl
  · rw [hvv]

/-! ### Evaluation of the pipeline on the concrete fixtures -/

theorem svalQ_val_300 : svalQ (Score.val 300 90000) = 1 := by
  rw [show svalQ (Score.val 300 90000) = 300 * |(300 : ℚ)| / 90000 from rfl,
    abs_of_nonneg (by norm_num : (0 : ℚ) ≤ 300)]
  norm_num

theorem svalQ_val_neg300 : svalQ (Score.val (-300) 90000) = -1 := by
  rw [show svalQ (Score.val (-300) 90000) = (-300) * |(-300 : ℚ)| / 90000 from rfl,
    abs_of_nonpos (by norm_num : (-300 : ℚ) ≤ 0)]
  norm_num

theorem eval_scored_zzz :
    scored_vectors model0 sw0 ["zzz"] "happy" = [(0, Score.nan)] := by
  rw [scored_vectors, numbered_vectors_eq_enum, interesting_phrases_vectors]
  simp only [List.map_cons, List.map_nil, eval_pv_zzz, eval_pv_happy, pyEnumerate,
    simOpt, eval_sim_zero_one, List.filter]

theorem eval_scored_hs :
    scored_vectors model0 sw0 ["happy", "sad"] "happy"
      = [(0, Score.val 300 90000), (1, Score.val (-300) 90000)] := by
  rw [scored_vectors, numbered_vectors_eq_enum, interesting_phrases_vectors]
  simp only [List.map_cons, List.map_nil, eval_pv_happy, eval_pv_sad, pyEnumerate,
    simOpt, eval_sim_one_one, eval_sim_negone_one]

theorem eval_scored_zh :
    scored_vectors model0 sw0 ["zzz", "happy"] "happy"
      = [(0, Score.nan), (1, Score.val 300 90000)] := by
  rw [scored_vectors, numbered_vectors_eq_enum, interesting_phrases_vectors]
  simp only [List.map_cons, List.map_nil, eval_pv_zzz, eval_pv_happy, pyEnumerate,
    simOpt, eval_sim_zero_one, eval_sim_one_one]

theorem eval_sorted_zzz :
    sorted_vectors model0 sw0 ["zzz"] "happy" = [(0, Score.nan)] := by
  rw [sorted_vectors, eval_scored_zzz]
  rfl

theorem eval_sorted_hs :
    sorted_vectors model0 sw0 ["happy", "sad"] "happy"
      = [(0, Score.val 300 90000), (1, Score.val (-300) 90000)] := by
  rw [sorted_vectors, eval_scored_hs]
  have hle : pyLe (0, Score.val 300 90000) (1, Score.val (-300) 90000) = true := by
    refine (pyLe_val _ _ (by simp) (by simp)).mpr ?_
    rw [svalQ_val_300, svalQ_val_neg300]
    norm_num
  simp only [pySorted, List.foldr_cons, List.foldr_nil, pyInsert, hle, if_true]

theorem eval_sorted_zh :
    sorted_vectors model0 sw0 ["zzz", "happy"] "happy"
      = [(0, Score.nan), (1, Score.val 300 90000)] := by
  rw [sorted_vectors, eval_scored_zh]
  rfl

theorem eval_gc_zzz :
    get_comparisons model0 sw0 ["zzz"] "happy" 1 = some ["zzz"] := by
  rw [get_comparisons]
  simp only [eval_sorted_zzz]
  rfl

/-! ### Remaining core facts for C3, C6, C7 and C10 -/

/-- Core fact behind C3: a corpus whose single phrase has only unknown
tokens is scored NaN, is kept by the pipeline, and is returned (not
excluded, no exception) when one result is requested. -/
theorem degenerate_single_core (model : String → Option Vec) (sw : List String)
    (p q : String) (h : ∀ w ∈ phrase_words sw p, model w = none) :
    scored_vectors model sw [p] q = [(0, Score.nan)]
      ∧ get_comparisons model sw [p] q 1 = some [p] := by
  rcases Option.isSome_iff_exists.mp (phrase_vector_isSome model sw q) with ⟨qv, hqv⟩
  have hsim : simOpt (phrase_vector model sw p) (phrase_vector model sw q)
      = Score.nan := by
    by_cases hne : phrase_words sw p = []
    · rw [phrase_vector_empty_core model sw p hne, hqv]
      rw [show simOpt (some (List.replicate 300 none)) (some qv)
          = similarity (List.replicate 300 none) qv from rfl]
      exact similarity_nan_vector qv
    · rw [phrase_vector_unknown_core model sw p h hne, hqv]
      rw [show simOpt (some (List.replicate 300 (some (0 : ℚ)))) (some qv)
          = similarity (List.replicate 300 (some 0)) qv from rfl]
      apply similarity_zero_norm_core
      left
      rw [dotR_replicate]
      norm_num
  have hscored : scored_vectors model sw [p] q = [(0, Score.nan)] := by
    rw [scored_vectors, numbered_vectors_eq_enum, interesting_phrases_vectors]
    simp only [List.map_cons, List.map_nil, pyEnumerate, List.filter, hsim]
  have hsorted : sorted_vectors model sw [p] q = [(0, Score.nan)] := by
    rw [sorted_vectors, hscored]
    rfl
  refine ⟨hscored, ?_⟩
  rw [get_comparisons]
  simp only [hsorted]
  rfl

/-- Core fact behind C6: an entry of the scored list whose score is
not NaN carries a defined value with positive squared denominator. -/
theorem scored_entry_shape (model : String → Option Vec) (sw : List String)
    (phrases : List String) (q : String) (p : ℕ × Score)
    (hp : p ∈ scored_vectors model sw phrases q) (hnan : p.2 ≠ Score.nan) :
    ∃ a d, p.2 = Score.val a d ∧ 0 < d := by
  rw [scored_vectors] at hp
  rcases List.mem_map.mp hp with ⟨item, _, hpe⟩
  rcases Option.isSome_iff_exists.mp (phrase_vector_isSome model sw q) with ⟨qv, hqv⟩
  rw [hqv] at hpe
  rcases hitem : item.2 with _ | v
  · rw [hitem] at hpe
    rw [← hpe] at hnan
    exact absurd rfl hnan
  · rw [hitem] at hpe
    have hps : p.2 = similarity v qv := by rw [← hpe]; rfl
    cases hsim : similarity v qv with
    | val a d => exact ⟨a, d, by rw [hps, hsim], similarity_val_pos v qv a d hsim⟩
    | nan =>
      rw [hsim] at hps
      exact absurd hps hnan

/-- Core fact behind C7's first half: a nonpositive count makes
range(number) empty and the call returns the empty list. -/
theorem get_comparisons_nonpos (model : String → Option Vec) (sw : List String)
    (phrases : List String) (q : String) (number : ℤ) (h : number ≤ 0) :
    get_comparisons model sw phrases q number = some [] := by
  rw [get_comparisons, Int.toNat_eq_zero.mpr h]
  rfl

theorem pyEnumerate_map_fst (n : ℕ) (l : List α) :
    (pyEnumerate n l).map Prod.fst = List.range' n l.length := by
  induction l generalizing n with
  | nil => rfl
  | cons x xs ih =>
    rw [pyEnumerate, List.map_cons, List.length_cons, List.range'_succ, ih]

/-- The vectorized phrase always has dimension 300 when every table
vector has dimension 300. -/
theorem phrase_vector_getD_length (model : String → Option Vec) (sw : List String)
    (p : String) (hwf : ∀ w v, model w = some v → v.length = 300) :
    ((phrase_vector model sw p).getD []).length = 300 := by
  simp only [phrase_vector, Option.getD_some, List.length_map]
  have hstep : ∀ (ws : List String) (acc : Vec), acc.length = 300 →
      (ws.foldl (fun pv word => vecAdd (tokenLookup model word) pv) acc).length = 300 := by
    intro ws
    induction ws with
    | nil => intro acc h; exact h
    | cons w ws ih =>
      intro acc h
      rw [List.foldl_cons]
      apply ih
      have htok : (tokenLookup model w).length = 300 := by
        rcases hm : model w with _ | v
        · unfold tokenLookup
          rw [hm]
          simp
        · unfold tokenLookup
          rw [hm]
          exact hwf w v hm
      rw [vecAdd, List.length_zipWith, h, htok]
      exact min_self 300
  exact hstep _ zeros300 (by simp [zeros300])

/-! ### The claims -/

/-- C1: for every input string that tokenizes to at least one
whitespace-separated token, phrase_vector returns the elementwise
arithmetic mean of the per-token embedding vectors, where a token
unknown to the embedding table contributes the zero vector of
dimension 300 instead of aborting the computation.  The embedding
table is presented with its exact rational entries through qmodel. -/
theorem claim_C1_phrase_vector_mean (model : String → Option Vec)
    (qmodel : String → Option (List ℚ)) (stopwords : List String) (phrase : String)
    (hco : ∀ w, model w = (qmodel w).map (fun u => u.map some))
    (hnz : phrase_words stopwords phrase ≠ []) :
    phrase_vector model stopwords phrase
      = some ((spec_mean_vector qmodel (phrase_words stopwords phrase)).map some) :=
  phrase_vector_mean_core model qmodel stopwords phrase hco hnz

/-- Witness for C1 at the two-token phrase happy sad over the concrete
two-word table. -/
theorem claim_C1_witness :
    phrase_vector model0 sw0 "happy sad"
      = some ((spec_mean_vector qmodel0 (phrase_words sw0 "happy sad")).map some) :=
  claim_C1_phrase_vector_mean model0 qmodel0 sw0 "happy sad" model0_coherent (by decide)

/-- C2 (amended): get_comparisons returns a list of exactly
number.toNat phrases, bare phrase strings rather than (phrase, score)
pairs, whenever number.toNat does not exceed the corpus size; when
number exceeds the corpus size the call raises an IndexError (modelled
by none) instead of returning all entries. -/
theorem claim_C2_amended (model : String → Option Vec) (stopwords : List String)
    (phrases : List String) (phrase : String) (number : ℤ) :
    (number.toNat ≤ phrases.length →
      ∃ out, get_comparisons model stopwords phrases phrase number = some out
        ∧ out.length = number.toNat)
    ∧ (phrases.length < number.toNat →
      get_comparisons model stopwords phrases phrase number = none) :=
  ⟨get_comparisons_some model stopwords phrases phrase number,
   get_comparisons_none model stopwords phrases phrase number⟩

/-- Witness for C2: a two-entry corpus queried with n = 2 yields a
result of length 2. -/
theorem claim_C2_witness :
    ∃ out, get_comparisons model0 sw0 ["happy", "sad"] "happy" 2 = some out
      ∧ out.length = (2 : ℤ).toNat :=
  (claim_C2_amended model0 sw0 ["happy", "sad"] "happy" 2).1 (by decide)

/-- Counterexample to C2 as stated: with a one-entry corpus and n = 2
the call does not return all entries, it fails (IndexError). -/
theorem claim_C2_counterexample :
    get_comparisons model0 sw0 ["happy"] "happy" 2 = none :=
  get_comparisons_none model0 sw0 ["happy"] "happy" 2 (by decide)

/-- C3 (amended): a phrase composed entirely of unknown tokens is
scored NaN, is NOT excluded from ranking consideration, and appears in
query results: as the only corpus entry it is returned by a one-result
query, with no exception raised. -/
theorem claim_C3_amended (model : String → Option Vec) (sw : List String)
    (p q : String) (h : ∀ w ∈ phrase_words sw p, model w = none) :
    scored_vectors model sw [p] q = [(0, Score.nan)]
      ∧ get_comparisons model sw [p] q 1 = some [p] :=
  degenerate_single_core model sw p q h

/-- Witness for C3 at the unknown-token phrase zzz and a two-token
query. -/
theorem claim_C3_witness :
    scored_vectors model0 sw0 ["zzz"] "happy sad" = [(0, Score.nan)]
      ∧ get_comparisons model0 sw0 ["zzz"] "happy sad" 1 = some ["zzz"] :=
  claim_C3_amended model0 sw0 "zzz" "happy sad" (by decide)

/-- Counterexample to C3 as stated: the all-unknown-token phrase zzz
DOES appear in a query result. -/
theorem claim_C3_counterexample :
    get_comparisons model0 sw0 ["zzz"] "happy" 1 = some ["zzz"] :=
  eval_gc_zzz

/-- C4 (amended): when either operand has zero norm, similarity
returns the float NaN value (Score.nan) rather than raising any
error; there is no DegenerateVectorError in the code. -/
theorem claim_C4_amended (v w : Vec)
    (h : dotR v v = some 0 ∨ dotR w w = some 0) :
    similarity v w = Score.nan :=
  similarity_zero_norm_core v w h

/-- Witness for C4 with the zero vector as right operand. -/
theorem claim_C4_witness :
    similarity (List.replicate 300 (some (1 : ℚ))) (List.replicate 300 (some (0 : ℚ)))
      = Score.nan :=
  claim_C4_amended _ _ (Or.inr (by rw [dotR_replicate]; norm_num))

/-- Counterexample to C4 as stated: similarity on a zero-norm left
operand returns the NaN score value, not an error result. -/
theorem claim_C4_counterexample :
    similarity (List.replicate 300 (some (0 : ℚ))) (List.replicate 300 (some (1 : ℚ)))
      = Score.nan :=
  eval_sim_zero_one

/-- C5 (amended): on input that tokenizes to zero tokens, phrase_vector
performs the division by zero and returns the all-NaN array of
dimension 300; it raises no EmptyInputError and returns no undefined
marker. -/
theorem claim_C5_amended (model : String → Option Vec) (sw : List String)
    (s : String) (h : phrase_words sw s = []) :
    phrase_vector model sw s = some (List.replicate 300 none) :=
  phrase_vector_empty_core model sw s h

/-- Witness for C5 at the empty and at a whitespace-only string. -/
theorem claim_C5_witness :
    phrase_vector model0 sw0 "" = some (List.replicate 300 none)
      ∧ phrase_vector model0 sw0 "   " = some (List.replicate 300 none) :=
  ⟨claim_C5_amended model0 sw0 "" (by decide),
   claim_C5_amended model0 sw0 "   " (by decide)⟩

/-- Counterexample to C5 as stated: on a whitespace-only input
phrase_vector returns normally (an all-NaN array), with no error. -/
theorem claim_C5_counterexample :
    phrase_vector model0 sw0 " " = some (List.replicate 300 none) :=
  phrase_vector_empty_core model0 sw0 " " (by decide)

/-- C6 (amended): whenever every scored entry is defined (no NaN
score), the sorted sequence is in descending order of real score
value, and any two entries with equal score values appear in their
original corpus insertion order (stable tie-breaking).  With NaN
scores present the descending-order property fails (see the
counterexample). -/
theorem claim_C6_amended (model : String → Option Vec) (sw : List String)
    (phrases : List String) (q : String)
    (h : ∀ p ∈ scored_vectors model sw phrases q, p.2 ≠ Score.nan) :
    (sorted_vectors model sw phrases q).Pairwise
      (fun p r => scoreVal r.2 ≤ scoreVal p.2
        ∧ (scoreVal p.2 = scoreVal r.2 → p.1 < r.1)) := by
  have hrb : (sorted_vectors model sw phrases q).Pairwise rankedBefore := by
    rw [sorted_vectors]
    exact pySorted_rankedBefore _ h (scored_vectors_pairwise_fst model sw phrases q)
  refine hrb.imp_of_mem ?_
  intro p r hp hr hpr
  have hp2 : p ∈ scored_vectors model sw phrases q := by
    rw [sorted_vectors] at hp
    exact (mem_pySorted _ _).mp hp
  have hr2 : r ∈ scored_vectors model sw phrases q := by
    rw [sorted_vectors] at hr
    exact (mem_pySorted _ _).mp hr
  rcases scored_entry_shape model sw phrases q p hp2 (h p hp2) with ⟨a, d, hpd, hd⟩
  rcases scored_entry_shape model sw phrases q r hr2 (h r hr2) with ⟨b, e, hre, he⟩
  rcases hpr with hlt | ⟨heq, hidx⟩
  · constructor
    · rw [hpd, hre] at hlt ⊢
      exact (svalQ_le_iff b e a d he hd).mp hlt.le
    · intro hveq
      rw [hpd, hre] at hveq hlt
      exact absurd ((svalQ_eq_iff a d b e hd he).mpr hveq) (ne_of_gt hlt)
  · constructor
    · rw [hpd, hre] at heq ⊢
      exact (svalQ_le_iff b e a d he hd).mp heq.le
    · intro _
      exact hidx

/-- Witness for C6: a two-entry corpus with defined scores 1 and -1
sorts descending with the tie rule. -/
theorem claim_C6_witness :
    (sorted_vectors model0 sw0 ["happy", "sad"] "happy").Pairwise
      (fun p r => scoreVal r.2 ≤ scoreVal p.2
        ∧ (scoreVal p.2 = scoreVal r.2 → p.1 < r.1)) :=
  claim_C6_amended model0 sw0 ["happy", "sad"] "happy" (by
    rw [eval_scored_hs]
    intro p hp
    rcases List.mem_cons.mp hp with rfl | hp2
    · simp
    · rcases List.mem_cons.mp hp2 with rfl | hp3
      · simp
      · cases hp3)

/-- Counterexample to C6 as stated: with a NaN-scored first entry the
output sequence is not in descending score order under the IEEE-754
greater-or-equal comparison (NaN compares false). -/
theorem claim_C6_counterexample :
    sorted_vectors model0 sw0 ["zzz", "happy"] "happy"
        = [(0, Score.nan), (1, Score.val 300 90000)]
      ∧ ¬ (sorted_vectors model0 sw0 ["zzz", "happy"] "happy").Pairwise
          (fun p r => scoreGe p.2 r.2 = true) := by
  refine ⟨eval_sorted_zh, ?_⟩
  rw [eval_sorted_zh]
  intro hpw
  have hrel := List.rel_of_pairwise_cons hpw (List.mem_cons_self _ _)
  simp [scoreGe] at hrel

/-- C7 (amended): a call with n at most 0 returns the empty list (no
contract-violation error is raised), while a call with n at least 1 on
an index of size 0 raises an IndexError rather than returning an
empty result. -/
theorem claim_C7_amended (model : String → Option Vec) (sw : List String) :
    (∀ (phrases : List String) (q : String) (number : ℤ), number ≤ 0 →
      get_comparisons model sw phrases q number = some [])
    ∧ (∀ (q : String) (number : ℤ), 1 ≤ number →
      get_comparisons model sw [] q number = none) := by
  constructor
  · intro phrases q number h
    exact get_comparisons_nonpos model sw phrases q number h
  · intro q number h
    apply get_comparisons_none
    simp only [List.length_nil]
    omega

/-- Witness for C7 at n = -2 on a one-entry corpus and n = 3 on the
empty corpus. -/
theorem claim_C7_witness :
    get_comparisons model0 sw0 ["happy"] "happy" (-2) = some []
      ∧ get_comparisons model0 sw0 [] "happy" 3 = none :=
  ⟨(claim_C7_amended model0 sw0).1 ["happy"] "happy" (-2) (by norm_num),
   (claim_C7_amended model0 sw0).2 "happy" 3 (by norm_num)⟩

/-- Counterexample to C7 as stated: n = -1 returns an empty list
instead of failing, and n = 1 on an empty index fails instead of
returning an empty result. -/
theorem claim_C7_counterexample :
    get_comparisons model0 sw0 ["happy"] "happy" (-1) = some []
      ∧ get_comparisons model0 sw0 [] "happy" 1 = none :=
  ⟨get_comparisons_nonpos model0 sw0 ["happy"] "happy" (-1) (by norm_num),
   get_comparisons_none model0 sw0 [] "happy" 1 (by decide)⟩

/-- C8: for every dimension-300 vector with finite (non-NaN)
components and non-zero norm, the self-similarity score is represented
as a / sqrt (a * a) for a positive self-inner-product a, and its exact
real value equals 1. -/
theorem claim_C8_self_similarity (v : Vec) (_hlen : v.length = 300)
    (hfin : ∀ c ∈ v, c.isSome) (hnz : ∃ c ∈ v, c ≠ some 0) :
    ∃ a : ℚ, 0 < a ∧ similarity v v = Score.val a (a * a)
      ∧ scoreVal (similarity v v) = 1 := by
  rcases dotR_self_isSome v hfin with ⟨x, hx⟩
  have hpos : 0 < x := by
    apply dotR_self_pos v x hx
    rcases hnz with ⟨c, hc, hne⟩
    refine ⟨c, hc, ?_⟩
    intro qq hq h0
    apply hne
    rw [hq, h0]
  rcases similarity_self_core v x hx hpos with ⟨h1, h2⟩
  exact ⟨x, hpos, h1, h2⟩

/-- Witness for C8 at the constant vector of ones. -/
theorem claim_C8_witness :
    ∃ a : ℚ, 0 < a
      ∧ similarity (List.replicate 300 (some 1)) (List.replicate 300 (some 1))
          = Score.val a (a * a)
      ∧ scoreVal (similarity (List.replicate 300 (some 1))
          (List.replicate 300 (some 1))) = 1 :=
  claim_C8_self_similarity (List.replicate 300 (some 1))
    (by simp)
    (fun c hc => by rw [List.eq_of_mem_replicate hc]; rfl)
    ⟨some 1, List.mem_replicate.mpr ⟨by norm_num, rfl⟩, by simp⟩

/-- C9: tokenization splits the lowercased input on whitespace and the
stopword condition discards nothing: the token list used for
aggregation is the full lowercase whitespace split. -/
theorem claim_C9_tokenization (stopwords : List String) (s : String) :
    phrase_words stopwords s = pySplit (pyLower s) := by
  rw [phrase_words]
  apply List.filter_eq_self.mpr
  intro a _
  simp

/-- C10: the is-not-None filter inside get_comparisons never excludes
any entry, because phrase_vector always returns a vector: the filtered
numbered list is the full enumeration, the indices entering scoring
are exactly 0 .. corpus size - 1, and (over a table of dimension-300
vectors) every phrase vector has dimension 300. -/
theorem claim_C10_filter_keeps_all (model : String → Option Vec) (sw : List String)
    (phrases : List String) (q : String)
    (hwf : ∀ w v, model w = some v → v.length = 300) :
    numbered_vectors model sw phrases
        = pyEnumerate 0 (interesting_phrases_vectors model sw phrases)
      ∧ (scored_vectors model sw phrases q).map Prod.fst = List.range phrases.length
      ∧ ∀ p : String, ((phrase_vector model sw p).getD []).length = 300 := by
  refine ⟨numbered_vectors_eq_enum model sw phrases, ?_,
    fun p => phrase_vector_getD_length model sw p hwf⟩
  rw [scored_vectors, List.map_map]
  rw [show (Prod.fst ∘ fun item : ℕ × Option Vec =>
      (item.1, simOpt item.2 (phrase_vector model sw q))) = Prod.fst from rfl]
  rw [numbered_vectors_eq_enum, pyEnumerate_map_fst, interesting_phrases_vectors,
    List.length_map, List.range_eq_range']

/-- Witness for C10 over the concrete table (whose vectors all have
dimension 300) and a one-entry corpus. -/
theorem claim_C10_witness :
    numbered_vectors model0 sw0 ["happy"]
        = pyEnumerate 0 (interesting_phrases_vectors model0 sw0 ["happy"])
      ∧ (scored_vectors model0 sw0 ["happy"] "happy").map Prod.fst
          = List.range (["happy"] : List String).length
      ∧ ∀ p : String, ((phrase_vector model0 sw0 p).getD []).length = 300 :=
  claim_C10_filter_keeps_all model0 sw0 ["happy"] "happy" (by
    intro w v h
    unfold model0 qmodel0 at h
    split_ifs at h with h1 h2
    · injection h with h3
      rw [← h3, vOneQ]
      simp
    · injection h with h3
      rw [← h3, vNegOneQ]
      simp
    · simp at h)
